import Mathlib

/-!
Verification of the explora voxel engine core: chunk storage (`common/src/chunk.rs`),
block registry (`common/src/block.rs`), visible-surface mesh extraction
(`explora/src/render/mesh.rs`), index-buffer generation (`explora/src/render/voxels.rs`),
texture-atlas packing (`explora/src/render/atlas.rs`) and camera rotation
(`explora/src/camera.rs`), as a shallow embedding in Lean.

Machine integers (`i32`, `u32`, `usize`) are modelled by `Int`/`Nat`: every quantity
in the embedded code stays far below any overflow boundary for the inputs considered.
`f32` vertex coordinates are modelled by exact integers (all coordinates are sums of
products of small integers, exact in `f32` for chunk-grid positions below `2^19`), and
`f32` camera angles by exact rationals; the camera constants below are the exact
rational values of the corresponding `f32` constants.  Fallible operations
(`Option` in Rust) are `Option`; a Rust `panic!`/`unwrap` failure is `none` at the
function's own `Option` result where the claims require observing it.
-/

namespace Explora

/-- Block kinds, from `common/src/block.rs` (`enum BlockId`). -/
inductive BlockId where
  | Air
  | Dirt
  | Grass
  | Stone
  deriving DecidableEq, Repr

/-- `BlockId::is_air` from `common/src/block.rs`. -/
def BlockId.is_air : BlockId → Bool
  | .Air => true
  | _ => false

/-- `BlockId::is_solid` from `common/src/block.rs`: everything except Air. -/
def BlockId.is_solid (b : BlockId) : Bool :=
  !b.is_air

/-- Modelled from the spec: the `common::math` vector module is not among the sources;
a `Vec3<i32>` is an integer 3-vector ("World position — an integer 3-vector"). -/
structure Vec3i where
  x : Int
  y : Int
  z : Int
  deriving DecidableEq, Repr

/-- Modelled from the spec: a `Vec2<i32>` chunk-grid position on the X/Z grid. -/
structure Vec2i where
  x : Int
  y : Int
  deriving DecidableEq, Repr

/-- Modelled from the spec: `Vec3::is_any_negative`, true iff some component is
negative (the spec's "a position is valid iff all three coordinates are
non-negative and strictly less than the corresponding extent"). -/
def Vec3i.is_any_negative (v : Vec3i) : Bool :=
  decide (v.x < 0) || decide (v.y < 0) || decide (v.z < 0)

/-- A chunk: the dense block array of `common/src/chunk.rs`, modelled as its backing
store, a map from flat array index to block kind.  Only indices below
`16 * 256 * 16` are ever read through `Chunk::get`. -/
structure Chunk where
  blocks : Nat → BlockId

namespace Chunk

/-- `Chunk::SIZE.x` (= 16). -/
def SIZE_X : Nat := 16

/-- `Chunk::SIZE.y` (= 256). -/
def SIZE_Y : Nat := 256

/-- `Chunk::SIZE.z` (= 16). -/
def SIZE_Z : Nat := 16

/-- `Chunk::index` from `common/src/chunk.rs`: `none` on any negative coordinate,
`none` on any coordinate at or above the extent, otherwise the row-major index
`SIZE.x * SIZE.y * z + SIZE.x * y + x` (the `as usize` cast of a non-negative
`i32` is `Int.toNat`). -/
def index (pos : Vec3i) : Option Nat :=
  if pos.is_any_negative then
    none
  else
    let px := pos.x.toNat
    let py := pos.y.toNat
    let pz := pos.z.toNat
    if px ≥ SIZE_X ∨ py ≥ SIZE_Y ∨ pz ≥ SIZE_Z then
      none
    else
      some (SIZE_X * SIZE_Y * pz + SIZE_X * py + px)

/-- `Chunk::get` from `common/src/chunk.rs`. -/
def get (c : Chunk) (pos : Vec3i) : Option BlockId :=
  if pos.is_any_negative then
    none
  else
    (index pos).map c.blocks

/-- `Chunk::out_of_bounds` from `common/src/chunk.rs`. -/
def out_of_bounds (pos : Vec3i) : Bool :=
  pos.is_any_negative
    || decide (pos.x ≥ (SIZE_X : Int))
    || decide (pos.y ≥ (SIZE_Y : Int))
    || decide (pos.z ≥ (SIZE_Z : Int))

/-- The block `Chunk::flat` stores for a cell with local height `y`
(the `match y` in `common/src/chunk.rs`). -/
def flatBlock (y : Nat) : BlockId :=
  if y ≤ 32 then .Stone
  else if y ≤ 254 then .Dirt
  else if y = 255 then .Grass
  else .Air

/-- `Chunk::flat` from `common/src/chunk.rs`.  The loop writes
`blocks[index(x, y, z)] = flatBlock y` once for every in-bounds cell; since
`index (x, y, z) = 4096 * z + 16 * y + x` with `x < 16` and `y < 256`, the height
of the cell stored at flat index `i` is `i / 16 % 256`, so the resulting array is
exactly the function below. -/
def flat : Chunk :=
  ⟨fun i => flatBlock (i / 16 % 256)⟩

/-- A chunk whose backing array holds Air everywhere (a possible state of the
`blocks` field, used as a test fixture for cells containing Air). -/
def allAir : Chunk :=
  ⟨fun _ => BlockId.Air⟩

end Chunk

/-- C3: for every position `p`, `Chunk::get` returns a block exactly when all three
coordinates are non-negative and strictly below the extent `(16, 256, 16)`, returns
`none` on every other position, and `Chunk::out_of_bounds p` is true iff some
coordinate is negative or at least the corresponding extent; hence
`get p = none ↔ out_of_bounds p`. -/
theorem chunk_get_bounds (c : Chunk) (p : Vec3i) :
    ((c.get p).isSome ↔
      (0 ≤ p.x ∧ p.x < 16 ∧ 0 ≤ p.y ∧ p.y < 256 ∧ 0 ≤ p.z ∧ p.z < 16)) ∧
    (Chunk.out_of_bounds p = true ↔
      (p.x < 0 ∨ p.y < 0 ∨ p.z < 0 ∨ 16 ≤ p.x ∨ 256 ≤ p.y ∨ 16 ≤ p.z)) ∧
    (c.get p = none ↔ Chunk.out_of_bounds p = true) := by
  unfold Chunk.get Chunk.out_of_bounds Chunk.index Vec3i.is_any_negative
  unfold Chunk.SIZE_X Chunk.SIZE_Y Chunk.SIZE_Z
  by_cases hx : p.x < 0 <;> by_cases hy : p.y < 0 <;> by_cases hz : p.z < 0 <;>
    (simp [hx, hy, hz]; try omega)

/-- C4: on every in-bounds position, `Chunk::index` returns
`some (16 * 256 * z + 16 * y + x)` (row-major, x fastest); the mapping is injective
on in-bounds positions; every out-of-bounds position yields `none`. -/
theorem chunk_index_row_major (p q : Vec3i)
    (hp : 0 ≤ p.x ∧ p.x < 16 ∧ 0 ≤ p.y ∧ p.y < 256 ∧ 0 ≤ p.z ∧ p.z < 16)
    (hq : 0 ≤ q.x ∧ q.x < 16 ∧ 0 ≤ q.y ∧ q.y < 256 ∧ 0 ≤ q.z ∧ q.z < 16) :
    Chunk.index p = some (16 * 256 * p.z.toNat + 16 * p.y.toNat + p.x.toNat) ∧
    (Chunk.index p = Chunk.index q → p = q) ∧
    (∀ r : Vec3i, Chunk.out_of_bounds r = true → Chunk.index r = none) := by
  obtain ⟨hx0, hx1, hy0, hy1, hz0, hz1⟩ := hp
  obtain ⟨hx0', hx1', hy0', hy1', hz0', hz1'⟩ := hq
  refine ⟨?_, ?_, ?_⟩
  · unfold Chunk.index Vec3i.is_any_negative Chunk.SIZE_X Chunk.SIZE_Y Chunk.SIZE_Z
    have : ¬(p.x < 0) := by omega
    simp [this, show ¬(p.y < 0) by omega, show ¬(p.z < 0) by omega]
    omega
  · intro h
    have hip : Chunk.index p = some (16 * 256 * p.z.toNat + 16 * p.y.toNat + p.x.toNat) := by
      unfold Chunk.index Vec3i.is_any_negative Chunk.SIZE_X Chunk.SIZE_Y Chunk.SIZE_Z
      simp [show ¬(p.x < 0) by omega, show ¬(p.y < 0) by omega, show ¬(p.z < 0) by omega]
      omega
    have hiq : Chunk.index q = some (16 * 256 * q.z.toNat + 16 * q.y.toNat + q.x.toNat) := by
      unfold Chunk.index Vec3i.is_any_negative Chunk.SIZE_X Chunk.SIZE_Y Chunk.SIZE_Z
      simp [show ¬(q.x < 0) by omega, show ¬(q.y < 0) by omega, show ¬(q.z < 0) by omega]
      omega
    rw [hip, hiq] at h
    have hpq : 16 * 256 * p.z.toNat + 16 * p.y.toNat + p.x.toNat =
        16 * 256 * q.z.toNat + 16 * q.y.toNat + q.x.toNat := by
      exact Option.some.inj h
    obtain ⟨px, py, pz⟩ := p
    obtain ⟨qx, qy, qz⟩ := q
    simp only [Vec3i.mk.injEq]
    simp only at hpq hx0 hx1 hy0 hy1 hz0 hz1 hx0' hx1' hy0' hy1' hz0' hz1'
    omega
  · intro r hr
    unfold Chunk.out_of_bounds Vec3i.is_any_negative at hr
    unfold Chunk.index Vec3i.is_any_negative Chunk.SIZE_X Chunk.SIZE_Y Chunk.SIZE_Z
    unfold Chunk.SIZE_X Chunk.SIZE_Y Chunk.SIZE_Z at hr
    simp at hr ⊢
    omega

/-- Witness for C4 at the concrete positions `(1, 2, 3)`, `(1, 2, 3)` and the
out-of-bounds `(-1, 0, 0)`. -/
theorem chunk_index_row_major_witness :
    Chunk.index ⟨1, 2, 3⟩ = some (16 * 256 * 3 + 16 * 2 + 1) ∧
    Chunk.index ⟨-1, 0, 0⟩ = none := by
  have h := chunk_index_row_major ⟨1, 2, 3⟩ ⟨1, 2, 3⟩ (by norm_num) (by norm_num)
  exact ⟨h.1, h.2.2 ⟨-1, 0, 0⟩ (by decide)⟩

/-- C5: in a chunk built by `Chunk::flat`, every in-bounds cell holds Stone for
`0 ≤ y ≤ 32`, Dirt for `33 ≤ y ≤ 254` and Grass for `y = 255`, independent of
`x` and `z`. -/
theorem chunk_flat_layers (x y z : Int)
    (hx : 0 ≤ x ∧ x < 16) (hy : 0 ≤ y ∧ y < 256) (hz : 0 ≤ z ∧ z < 16) :
    (y ≤ 32 → Chunk.flat.get ⟨x, y, z⟩ = some BlockId.Stone) ∧
    (33 ≤ y ∧ y ≤ 254 → Chunk.flat.get ⟨x, y, z⟩ = some BlockId.Dirt) ∧
    (y = 255 → Chunk.flat.get ⟨x, y, z⟩ = some BlockId.Grass) := by
  have hidx : Chunk.index ⟨x, y, z⟩ =
      some (16 * 256 * z.toNat + 16 * y.toNat + x.toNat) :=
    (chunk_index_row_major ⟨x, y, z⟩ ⟨x, y, z⟩
      (by exact ⟨hx.1, hx.2, hy.1, hy.2, hz.1, hz.2⟩)
      (by exact ⟨hx.1, hx.2, hy.1, hy.2, hz.1, hz.2⟩)).1
  have hget : Chunk.flat.get ⟨x, y, z⟩ =
      some (Chunk.flatBlock ((16 * 256 * z.toNat + 16 * y.toNat + x.toNat) / 16 % 256)) := by
    unfold Chunk.get Vec3i.is_any_negative
    simp [show ¬(x < 0) by omega, show ¬(y < 0) by omega, show ¬(z < 0) by omega, hidx,
      Chunk.flat]
  have hdecode : (16 * 256 * z.toNat + 16 * y.toNat + x.toNat) / 16 % 256 = y.toNat := by
    omega
  rw [hget, hdecode]
  unfold Chunk.flatBlock
  refine ⟨fun h => ?_, fun h => ?_, fun h => ?_⟩
  · simp [show y.toNat ≤ 32 by omega]
  · simp [show ¬(y.toNat ≤ 32) by omega, show y.toNat ≤ 254 by omega]
  · simp [show ¬(y.toNat ≤ 32) by omega, show ¬(y.toNat ≤ 254) by omega,
      show y.toNat = 255 by omega]

/-- Witness for C5 at the concrete cells `(0, 0, 0)`, `(5, 40, 7)` and `(15, 255, 15)`. -/
theorem chunk_flat_layers_witness :
    Chunk.flat.get ⟨0, 0, 0⟩ = some BlockId.Stone ∧
    Chunk.flat.get ⟨5, 40, 7⟩ = some BlockId.Dirt ∧
    Chunk.flat.get ⟨15, 255, 15⟩ = some BlockId.Grass := by
  refine ⟨?_, ?_, ?_⟩
  · exact (chunk_flat_layers 0 0 0 (by norm_num) (by norm_num) (by norm_num)).1 (by norm_num)
  · exact (chunk_flat_layers 5 40 7 (by norm_num) (by norm_num) (by norm_num)).2.1 (by norm_num)
  · exact (chunk_flat_layers 15 255 15 (by norm_num) (by norm_num) (by norm_num)).2.2 rfl

/-- A mesh vertex, from `explora/src/render/mod.rs` (`struct Vertex`): a 3D position
plus an atlas tile id (`texture_id`).  The `f32` position components are modelled
exactly by integers (every emitted coordinate is an integer, exact in `f32`). -/
structure Vertex where
  x : Int
  y : Int
  z : Int
  texture_id : Nat
  deriving DecidableEq, Repr

/-- Tile id chosen for the North/South/East/West faces in `create_chunk_mesh`
(`match block { Dirt => 0, Grass => 1, _ => continue }`); `none` models the
`continue`, which abandons the rest of the current cell. -/
def sideTile : BlockId → Option Nat
  | .Dirt => some 0
  | .Grass => some 1
  | _ => none

/-- Tile id chosen for the Top face in `create_chunk_mesh`
(`match block { Dirt => 0, Grass => 2, _ => continue }`). -/
def topTile : BlockId → Option Nat
  | .Dirt => some 0
  | .Grass => some 2
  | _ => none

/-- The four North-face vertices pushed by `create_chunk_mesh` (corner offsets
`(1,1,1), (1,0,1), (0,0,1), (0,1,1)` from the cell's world origin). -/
def northFace (off : Vec3i) (t : Nat) : List Vertex :=
  [⟨off.x + 1, off.y + 1, off.z + 1, t⟩,
   ⟨off.x + 1, off.y, off.z + 1, t⟩,
   ⟨off.x, off.y, off.z + 1, t⟩,
   ⟨off.x, off.y + 1, off.z + 1, t⟩]

/-- The four South-face vertices (`(0,1,0), (0,0,0), (1,0,0), (1,1,0)`). -/
def southFace (off : Vec3i) (t : Nat) : List Vertex :=
  [⟨off.x, off.y + 1, off.z, t⟩,
   ⟨off.x, off.y, off.z, t⟩,
   ⟨off.x + 1, off.y, off.z, t⟩,
   ⟨off.x + 1, off.y + 1, off.z, t⟩]

/-- The four East-face vertices (`(1,1,0), (1,0,0), (1,0,1), (1,1,1)`). -/
def eastFace (off : Vec3i) (t : Nat) : List Vertex :=
  [⟨off.x + 1, off.y + 1, off.z, t⟩,
   ⟨off.x + 1, off.y, off.z, t⟩,
   ⟨off.x + 1, off.y, off.z + 1, t⟩,
   ⟨off.x + 1, off.y + 1, off.z + 1, t⟩]

/-- The four West-face vertices (`(0,1,1), (0,0,1), (0,0,0), (0,1,0)`). -/
def westFace (off : Vec3i) (t : Nat) : List Vertex :=
  [⟨off.x, off.y + 1, off.z + 1, t⟩,
   ⟨off.x, off.y, off.z + 1, t⟩,
   ⟨off.x, off.y, off.z, t⟩,
   ⟨off.x, off.y + 1, off.z, t⟩]

/-- The four Top-face vertices (`(0,1,1), (0,1,0), (1,1,0), (1,1,1)`). -/
def topFace (off : Vec3i) (t : Nat) : List Vertex :=
  [⟨off.x, off.y + 1, off.z + 1, t⟩,
   ⟨off.x, off.y + 1, off.z, t⟩,
   ⟨off.x + 1, off.y + 1, off.z, t⟩,
   ⟨off.x + 1, off.y + 1, off.z + 1, t⟩]

/-- The four Bottom-face vertices (`(0,0,0), (0,0,1), (1,0,1), (1,0,0)`). -/
def bottomFace (off : Vec3i) (t : Nat) : List Vertex :=
  [⟨off.x, off.y, off.z, t⟩,
   ⟨off.x, off.y, off.z + 1, t⟩,
   ⟨off.x + 1, off.y, off.z + 1, t⟩,
   ⟨off.x + 1, off.y, off.z, t⟩]

/-- The vertices `create_chunk_mesh` (`explora/src/render/mesh.rs`) pushes for the
cell at local coordinates `(x, y, z)`: the loop body of the triple loop.  The six
sides are tested in source order North, South, East, West, Top, Bottom; each side
is guarded only by `Chunk::out_of_bounds` of the neighboring position.  A
`continue` in a tile `match` (block neither Dirt nor Grass) abandons the whole
remainder of the cell, which the chain `k1 … k6` models by producing `[]` in place
of all remaining sides.  `chunk.get(origin).unwrap()` is total on the loop domain;
`getD Air` stands for the `unwrap`. -/
def cellVerts (c : Chunk) (pos : Vec2i) (x y z : Nat) : List Vertex :=
  let block := (c.get ⟨(x : Int), (y : Int), (z : Int)⟩).getD BlockId.Air
  let off : Vec3i := ⟨pos.x * 16 + (x : Int), (y : Int), pos.y * 16 + (z : Int)⟩
  let k6 : List Vertex :=
    if Chunk.out_of_bounds ⟨(x : Int), (y : Int) - 1, (z : Int)⟩ then
      bottomFace off 0
    else []
  let k5 : List Vertex :=
    if Chunk.out_of_bounds ⟨(x : Int), (y : Int) + 1, (z : Int)⟩ then
      match topTile block with
      | some t => topFace off t ++ k6
      | none => []
    else k6
  let k4 : List Vertex :=
    if Chunk.out_of_bounds ⟨(x : Int) - 1, (y : Int), (z : Int)⟩ then
      match sideTile block with
      | some t => westFace off t ++ k5
      | none => []
    else k5
  let k3 : List Vertex :=
    if Chunk.out_of_bounds ⟨(x : Int) + 1, (y : Int), (z : Int)⟩ then
      match sideTile block with
      | some t => eastFace off t ++ k4
      | none => []
    else k4
  let k2 : List Vertex :=
    if Chunk.out_of_bounds ⟨(x : Int), (y : Int), (z : Int) - 1⟩ then
      match sideTile block with
      | some t => southFace off t ++ k3
      | none => []
    else k3
  let k1 : List Vertex :=
    if Chunk.out_of_bounds ⟨(x : Int), (y : Int), (z : Int) + 1⟩ then
      match sideTile block with
      | some t => northFace off t ++ k2
      | none => []
    else k2
  k1

/-- `create_chunk_mesh` from `explora/src/render/mesh.rs`, as the list of vertices
appended to the (initially empty) mesh vector: the triple loop over
`x < 16, y < 256, z < 16` concatenating each cell's contribution. -/
def create_chunk_mesh (chunk : Chunk) (pos : Vec2i) : List Vertex :=
  (List.range Chunk.SIZE_X).flatMap fun x =>
    (List.range Chunk.SIZE_Y).flatMap fun y =>
      (List.range Chunk.SIZE_Z).flatMap fun z =>
        cellVerts chunk pos x y z

/-- `compute_voxel_indices` from `explora/src/render/voxels.rs`: for each
`i < number_of_vertices / 4`, with `offset = i * 4`, append
`[offset, offset + 1, offset + 2, offset + 2, offset + 3, offset]`. -/
def compute_voxel_indices (number_of_vertices : Nat) : List Nat :=
  (List.range (number_of_vertices / 4)).flatMap fun i =>
    [i * 4, i * 4 + 1, i * 4 + 2, i * 4 + 2, i * 4 + 3, i * 4]

/-- The six axis-aligned neighbors of a cell, in the order the source tests them:
North `z+1`, South `z-1`, East `x+1`, West `x-1`, Top `y+1`, Bottom `y-1`. -/
def neighborsOf (p : Vec3i) : List Vec3i :=
  [⟨p.x, p.y, p.z + 1⟩, ⟨p.x, p.y, p.z - 1⟩,
   ⟨p.x + 1, p.y, p.z⟩, ⟨p.x - 1, p.y, p.z⟩,
   ⟨p.x, p.y + 1, p.z⟩, ⟨p.x, p.y - 1, p.z⟩]

theorem cellVerts_length_dvd (c : Chunk) (pos : Vec2i) (x y z : Nat) :
    4 ∣ (cellVerts c pos x y z).length := by
  cases hb : (c.get ⟨(x : Int), (y : Int), (z : Int)⟩).getD BlockId.Air <;>
    cases hN : Chunk.out_of_bounds ⟨(x : Int), (y : Int), (z : Int) + 1⟩ <;>
      cases hS : Chunk.out_of_bounds ⟨(x : Int), (y : Int), (z : Int) - 1⟩ <;>
        cases hE : Chunk.out_of_bounds ⟨(x : Int) + 1, (y : Int), (z : Int)⟩ <;>
          cases hW : Chunk.out_of_bounds ⟨(x : Int) - 1, (y : Int), (z : Int)⟩ <;>
            cases hT : Chunk.out_of_bounds ⟨(x : Int), (y : Int) + 1, (z : Int)⟩ <;>
              cases hB : Chunk.out_of_bounds ⟨(x : Int), (y : Int) - 1, (z : Int)⟩ <;>
                simp [cellVerts, hb, hN, hS, hE, hW, hT, hB, sideTile, topTile,
                  northFace, southFace, eastFace, westFace, topFace, bottomFace] <;>
                omega

theorem flatMap_length_dvd {α β : Type} (l : List α) (f : α → List β)
    (hf : ∀ a, 4 ∣ (f a).length) : 4 ∣ (l.flatMap f).length := by
  rw [List.length_flatMap]
  refine List.dvd_sum ?_
  intro t ht
  simp only [List.mem_map] at ht
  obtain ⟨a, _, rfl⟩ := ht
  exact hf a

/-- C1 (amended): a face is emitted for a side only when the neighboring cell on
that side is out of chunk bounds — the neighbor's block kind is never consulted —
so a cell whose six neighbors are all in bounds emits nothing, whatever those
neighbors contain.  For a Dirt or Grass cell, exactly one 4-vertex face is emitted
per out-of-bounds side.  For an Air or Stone cell the tile `match` hits `continue`
at the first out-of-bounds side among North, South, East, West, Top, so such a
cell emits only a Bottom face (tile 0), exactly when none of those five sides is
out of bounds and the cell sits at the bottom boundary. -/
theorem mesh_faces_only_at_border (c : Chunk) (pos : Vec2i) (x y z : Nat) :
    ((∀ n ∈ neighborsOf ⟨(x : Int), (y : Int), (z : Int)⟩,
        Chunk.out_of_bounds n = false) →
      cellVerts c pos x y z = []) ∧
    ((c.get ⟨(x : Int), (y : Int), (z : Int)⟩ = some BlockId.Dirt ∨
        c.get ⟨(x : Int), (y : Int), (z : Int)⟩ = some BlockId.Grass) →
      (cellVerts c pos x y z).length =
        4 * (neighborsOf ⟨(x : Int), (y : Int), (z : Int)⟩).countP
              (fun n => Chunk.out_of_bounds n)) ∧
    (((c.get ⟨(x : Int), (y : Int), (z : Int)⟩).getD BlockId.Air = BlockId.Air ∨
        (c.get ⟨(x : Int), (y : Int), (z : Int)⟩).getD BlockId.Air = BlockId.Stone) →
      cellVerts c pos x y z =
        if Chunk.out_of_bounds ⟨(x : Int), (y : Int), (z : Int) + 1⟩ = false ∧
            Chunk.out_of_bounds ⟨(x : Int), (y : Int), (z : Int) - 1⟩ = false ∧
            Chunk.out_of_bounds ⟨(x : Int) + 1, (y : Int), (z : Int)⟩ = false ∧
            Chunk.out_of_bounds ⟨(x : Int) - 1, (y : Int), (z : Int)⟩ = false ∧
            Chunk.out_of_bounds ⟨(x : Int), (y : Int) + 1, (z : Int)⟩ = false ∧
            Chunk.out_of_bounds ⟨(x : Int), (y : Int) - 1, (z : Int)⟩ = true then
          bottomFace ⟨pos.x * 16 + (x : Int), (y : Int), pos.y * 16 + (z : Int)⟩ 0
        else []) := by
  refine ⟨?_, ?_, ?_⟩
  · intro h
    simp only [neighborsOf, List.mem_cons, List.not_mem_nil, or_false,
      forall_eq_or_imp, forall_eq] at h
    obtain ⟨hN, hS, hE, hW, hT, hB⟩ := h
    simp [cellVerts, hN, hS, hE, hW, hT, hB]
  · intro hb
    rcases hb with hb | hb <;>
    · simp only [cellVerts, hb, Option.getD_some, sideTile, topTile, neighborsOf]
      cases hN : Chunk.out_of_bounds ⟨(x : Int), (y : Int), (z : Int) + 1⟩ <;>
        cases hS : Chunk.out_of_bounds ⟨(x : Int), (y : Int), (z : Int) - 1⟩ <;>
          cases hE : Chunk.out_of_bounds ⟨(x : Int) + 1, (y : Int), (z : Int)⟩ <;>
            cases hW : Chunk.out_of_bounds ⟨(x : Int) - 1, (y : Int), (z : Int)⟩ <;>
              cases hT : Chunk.out_of_bounds ⟨(x : Int), (y : Int) + 1, (z : Int)⟩ <;>
                cases hB : Chunk.out_of_bounds ⟨(x : Int), (y : Int) - 1, (z : Int)⟩ <;>
                  simp [hN, hS, hE, hW, hT, hB, northFace, southFace, eastFace,
                    westFace, topFace, bottomFace, List.countP_cons, List.countP_nil]
  · intro hb
    have hside : sideTile ((c.get ⟨(x : Int), (y : Int), (z : Int)⟩).getD BlockId.Air)
        = none := by
      rcases hb with hb | hb <;> rw [hb] <;> rfl
    have htop : topTile ((c.get ⟨(x : Int), (y : Int), (z : Int)⟩).getD BlockId.Air)
        = none := by
      rcases hb with hb | hb <;> rw [hb] <;> rfl
    simp only [cellVerts, hside, htop]
    cases hN : Chunk.out_of_bounds ⟨(x : Int), (y : Int), (z : Int) + 1⟩ <;>
      cases hS : Chunk.out_of_bounds ⟨(x : Int), (y : Int), (z : Int) - 1⟩ <;>
        cases hE : Chunk.out_of_bounds ⟨(x : Int) + 1, (y : Int), (z : Int)⟩ <;>
          cases hW : Chunk.out_of_bounds ⟨(x : Int) - 1, (y : Int), (z : Int)⟩ <;>
            cases hT : Chunk.out_of_bounds ⟨(x : Int), (y : Int) + 1, (z : Int)⟩ <;>
              cases hB : Chunk.out_of_bounds ⟨(x : Int), (y : Int) - 1, (z : Int)⟩ <;>
                simp [hN, hS, hE, hW, hT, hB]

/-- Counterexample to C1 as stated: in the flat chunk, the cell `(0, 0, 0)` holds
Stone, a solid block, and its South neighbor `(0, 0, -1)` is out of bounds, so the
claim requires exactly one 4-vertex South face; `create_chunk_mesh` emits no
vertex at all for that cell (the Stone tile `match` hits `continue` at the first
boundary side). -/
theorem mesh_faces_only_at_border_cex :
    Chunk.out_of_bounds ⟨0, 0, -1⟩ = true ∧
    Chunk.flat.get ⟨0, 0, 0⟩ = some BlockId.Stone ∧
    BlockId.Stone.is_solid = true ∧
    cellVerts Chunk.flat ⟨0, 0⟩ 0 0 0 = [] := by
  decide

/-- Witness for the amended C1 at concrete cells: the interior Dirt cell
`(5, 40, 5)` (all neighbors in bounds) emits nothing; the Dirt cell `(5, 40, 15)`
on the North boundary emits one face per out-of-bounds side; the Air cell
`(3, 0, 3)` of the all-Air chunk emits exactly the Bottom face. -/
theorem mesh_faces_only_at_border_witness :
    cellVerts Chunk.flat ⟨0, 0⟩ 5 40 5 = [] ∧
    (cellVerts Chunk.flat ⟨0, 0⟩ 5 40 15).length =
      4 * (neighborsOf ⟨((5 : Nat) : Int), ((40 : Nat) : Int), ((15 : Nat) : Int)⟩).countP
            (fun n => Chunk.out_of_bounds n) ∧
    cellVerts Chunk.allAir ⟨0, 0⟩ 3 0 3 = bottomFace ⟨3, 0, 3⟩ 0 := by
  refine ⟨?_, ?_, ?_⟩
  · exact (mesh_faces_only_at_border Chunk.flat ⟨0, 0⟩ 5 40 5).1 (by decide)
  · exact (mesh_faces_only_at_border Chunk.flat ⟨0, 0⟩ 5 40 15).2.1 (Or.inl (by decide))
  · exact ((mesh_faces_only_at_border Chunk.allAir ⟨0, 0⟩ 3 0 3).2.2
      (Or.inl (by decide))).trans (by decide)

theorem flatMap_range_six_get :
    ∀ (i : Nat) (g : Nat → List Nat), (∀ j, (g j).length = 6) → ∀ (m : Nat), i < m →
      (((List.range m).flatMap g).drop (6 * i)).take 6 = g i := by
  intro i
  induction i with
  | zero =>
    intro g hg m hm
    cases m with
    | zero => omega
    | succ k =>
      rw [List.range_succ_eq_map, List.flatMap_cons]
      simp only [Nat.mul_zero, List.drop_zero]
      rw [← hg 0]
      exact List.take_left _ _
  | succ i ih =>
    intro g hg m hm
    cases m with
    | zero => omega
    | succ k =>
      rw [List.range_succ_eq_map, List.flatMap_cons, List.flatMap_map]
      have h6 : 6 * (i + 1) = (g 0).length + 6 * i := by rw [hg 0]; omega
      rw [h6, List.drop_append]
      simp only [Nat.succ_eq_add_one]
      exact ih (fun a => g (a + 1)) (fun a => hg (a + 1)) k (by omega)

theorem compute_voxel_indices_length (n : Nat) :
    (compute_voxel_indices n).length = n / 4 * 6 := by
  unfold compute_voxel_indices
  generalize n / 4 = m
  induction m with
  | zero => rfl
  | succ k ih =>
    rw [List.range_succ, List.flatMap_append, List.length_append, ih]
    simp [List.flatMap_cons]
    omega

/-- C2: the vertex list produced by `create_chunk_mesh` always has length a
multiple of 4, and `compute_voxel_indices` applied to any such vertex count `n`
produces exactly `n / 4 * 6` indices, the `i`-th group of six being
`[i*4, i*4+1, i*4+2, i*4+2, i*4+3, i*4]` — two triangles per emitted quad. -/
theorem mesh_quad_invariant (c : Chunk) (pos : Vec2i) (n : Nat) (_hn : 4 ∣ n) :
    4 ∣ (create_chunk_mesh c pos).length ∧
    (compute_voxel_indices n).length = n / 4 * 6 ∧
    (∀ i, i < n / 4 →
      ((compute_voxel_indices n).drop (6 * i)).take 6 =
        [i * 4, i * 4 + 1, i * 4 + 2, i * 4 + 2, i * 4 + 3, i * 4]) := by
  refine ⟨?_, ?_, ?_⟩
  · unfold create_chunk_mesh
    refine flatMap_length_dvd _ _ fun x => ?_
    refine flatMap_length_dvd _ _ fun y => ?_
    refine flatMap_length_dvd _ _ fun z => ?_
    exact cellVerts_length_dvd c pos x y z
  · exact compute_voxel_indices_length n
  · intro i hi
    unfold compute_voxel_indices
    exact flatMap_range_six_get i
      (fun i => [i * 4, i * 4 + 1, i * 4 + 2, i * 4 + 2, i * 4 + 3, i * 4])
      (fun j => rfl) (n / 4) hi

/-- Witness for C2 at the flat chunk at grid position `(0, 0)` and the concrete
vertex count `n = 8`, group `i = 1`. -/
theorem mesh_quad_invariant_witness :
    4 ∣ (create_chunk_mesh Chunk.flat ⟨0, 0⟩).length ∧
    (compute_voxel_indices 8).length = 8 / 4 * 6 ∧
    ((compute_voxel_indices 8).drop (6 * 1)).take 6 =
      [1 * 4, 1 * 4 + 1, 1 * 4 + 2, 1 * 4 + 2, 1 * 4 + 3, 1 * 4] := by
  have h := mesh_quad_invariant Chunk.flat ⟨0, 0⟩ 8 (by decide)
  exact ⟨h.1, h.2.1, h.2.2 1 (by decide)⟩

/-- Counterexample to C10 as stated: the cell `(0, 0, 0)` of an all-Air chunk is
at local `y = 0` and holds Air, yet `create_chunk_mesh` emits nothing for it: the
South branch fires first (`(0, 0, -1)` is out of bounds) and its tile `match` on
Air hits `continue`, skipping the Bottom branch. -/
theorem air_bottom_face_cex :
    Chunk.allAir.get ⟨0, 0, 0⟩ = some BlockId.Air ∧
    Chunk.out_of_bounds ⟨0, -1, 0⟩ = true ∧
    cellVerts Chunk.allAir ⟨0, 0⟩ 0 0 0 = [] := by
  decide

/-- C10 (amended): an Air cell at local `y = 0` whose `x` and `z` both lie in
`1..=14` — so that no earlier side branch fires — emits exactly one 4-vertex
Bottom face with tile id 0, because the Bottom branch never inspects the block
kind; Air cells in the boundary columns (`x` or `z` in `{0, 15}`) are instead
aborted by the first lateral branch's `continue` and emit nothing. -/
theorem air_bottom_face_amended (c : Chunk) (pos : Vec2i) (x z : Nat)
    (hx : 1 ≤ x ∧ x ≤ 14) (hz : 1 ≤ z ∧ z ≤ 14)
    (_hb : c.get ⟨(x : Int), 0, (z : Int)⟩ = some BlockId.Air) :
    cellVerts c pos x 0 z =
      bottomFace ⟨pos.x * 16 + (x : Int), 0, pos.y * 16 + (z : Int)⟩ 0 ∧
    (cellVerts c pos x 0 z).length = 4 ∧
    (∀ v ∈ cellVerts c pos x 0 z, v.texture_id = 0) := by
  have hN : Chunk.out_of_bounds ⟨(x : Int), 0, (z : Int) + 1⟩ = false := by
    simp [Chunk.out_of_bounds, Vec3i.is_any_negative, Chunk.SIZE_X, Chunk.SIZE_Y,
      Chunk.SIZE_Z]
    omega
  have hS : Chunk.out_of_bounds ⟨(x : Int), 0, (z : Int) - 1⟩ = false := by
    simp [Chunk.out_of_bounds, Vec3i.is_any_negative, Chunk.SIZE_X, Chunk.SIZE_Y,
      Chunk.SIZE_Z]
    omega
  have hE : Chunk.out_of_bounds ⟨(x : Int) + 1, 0, (z : Int)⟩ = false := by
    simp [Chunk.out_of_bounds, Vec3i.is_any_negative, Chunk.SIZE_X, Chunk.SIZE_Y,
      Chunk.SIZE_Z]
    omega
  have hW : Chunk.out_of_bounds ⟨(x : Int) - 1, 0, (z : Int)⟩ = false := by
    simp [Chunk.out_of_bounds, Vec3i.is_any_negative, Chunk.SIZE_X, Chunk.SIZE_Y,
      Chunk.SIZE_Z]
    omega
  have hT : Chunk.out_of_bounds ⟨(x : Int), 1, (z : Int)⟩ = false := by
    simp [Chunk.out_of_bounds, Vec3i.is_any_negative, Chunk.SIZE_X, Chunk.SIZE_Y,
      Chunk.SIZE_Z]
    omega
  have hB : Chunk.out_of_bounds ⟨(x : Int), -1, (z : Int)⟩ = true := by
    simp [Chunk.out_of_bounds, Vec3i.is_any_negative, Chunk.SIZE_X, Chunk.SIZE_Y,
      Chunk.SIZE_Z]
  refine ⟨?_, ?_, ?_⟩ <;>
    simp [cellVerts, hN, hS, hE, hW, hT, hB, bottomFace]

/-- Witness for the amended C10 at the Air cell `(1, 0, 1)` of the all-Air chunk at
grid position `(0, 0)`. -/
theorem air_bottom_face_amended_witness :
    cellVerts Chunk.allAir ⟨0, 0⟩ 1 0 1 = bottomFace ⟨1, 0, 1⟩ 0 ∧
    (cellVerts Chunk.allAir ⟨0, 0⟩ 1 0 1).length = 4 ∧
    (∀ v ∈ cellVerts Chunk.allAir ⟨0, 0⟩ 1 0 1, v.texture_id = 0) := by
  have h := air_bottom_face_amended Chunk.allAir ⟨0, 0⟩ 1 1
    (by decide) (by decide) (by decide)
  exact ⟨h.1.trans (by decide), h.2.1, h.2.2⟩

/-- An image as `png_utils::PngImage` exposes it to `pack_textures`: its dimensions
(pixel content plays no role in any claim and is abstracted). -/
structure PngImage where
  width : Nat
  height : Nat
  deriving DecidableEq, Repr

/-- A directory entry enumerated by `pack_textures` after the `.png` extension
filter: its file stem, whether it is a directory, and the result of
`png_utils::read` on it (`none` models a read failure). -/
structure SrcFile where
  stem : String
  is_dir : Bool
  read : Option PngImage
  deriving DecidableEq, Repr

/-- The Atlas of `explora/src/render/atlas.rs`: packed image (dimensions),
`tile_size`, and the name → tile id map.  The `HashMap` is modelled as an
association list where `insert` conses in front, so `List.lookup` (first match)
gives the map's lookup semantics. -/
structure Atlas where
  image : PngImage
  tile_size : Nat
  textures : List (String × Nat)
  deriving DecidableEq, Repr

/-- Ceiling square root on naturals — the least `k` with `n ≤ k * k` — the value of
`((n as f32).sqrt().ceil()) as usize` in `pack_textures` (exact for every count
below `2^24`, far beyond any realistic directory size). -/
def natCeilSqrt (n : Nat) : Nat :=
  match (List.range (n + 1)).find? (fun k => decide (n ≤ k * k)) with
  | some k => k
  | none => n

/-- The per-file loop of `pack_textures`: skip directories, skip files whose read
fails, skip files whose dimensions differ from the first (reference) tile,
otherwise register `stem ↦ id` and increment `id`. -/
def packLoop : List SrcFile → PngImage → Nat → List (String × Nat) → List (String × Nat)
  | [], _, _, acc => acc
  | f :: rest, first, id, acc =>
    if f.is_dir then
      packLoop rest first id acc
    else
      match f.read with
      | none => packLoop rest first id acc
      | some image =>
        if image.width ≠ first.width ∨ image.height ≠ first.height then
          packLoop rest first id acc
        else
          packLoop rest first (id + 1) ((f.stem, id) :: acc)

/-- `Atlas::pack_textures` from `explora/src/render/atlas.rs`, on the enumerated
file list.  `files[0]` is indexed and its read `unwrap`ped before the loop, so an
empty list or an unreadable first file panics (`none`).  The side length in tiles
is `ceil(sqrt(files.len() + 1))`, computed from the raw enumeration count; the
name map starts from `"default" ↦ 0` (the placeholder) and is filled by
`packLoop` over all files, the first included.  (The debug write of `atlas.png`
is an I/O side effect with no bearing on the returned value.) -/
def Atlas.pack_textures (files : List SrcFile) : Option Atlas :=
  match files with
  | [] => none
  | f0 :: rest =>
    match f0.read with
    | none => none
    | some first_image =>
      let atlas_tile_count := natCeilSqrt ((f0 :: rest).length + 1)
      let atlas_width := first_image.width * atlas_tile_count
      let atlas_height := first_image.height * atlas_tile_count
      some
        { image := ⟨atlas_width, atlas_height⟩
          tile_size := first_image.width
          textures := packLoop (f0 :: rest) first_image 1 [("default", 0)] }

/-- `Atlas::get` from `explora/src/render/atlas.rs`: the registered id, or the
placeholder id 0 (with a logged warning) when the name is unknown. -/
def Atlas.get (a : Atlas) (name : String) : Nat :=
  match a.textures.lookup name with
  | some id => id
  | none => 0

/-- A block's six face tile ids, ordered North, South, East, West, Top, Bottom
(`struct BlockTexture` in `explora/src/render/atlas.rs`). -/
structure BlockTexture where
  values : List Nat
  deriving DecidableEq, Repr

/-- `Atlas::block_texture` from `explora/src/render/atlas.rs`. -/
def Atlas.block_texture (a : Atlas) (id : BlockId) : BlockTexture :=
  match id with
  | .Dirt =>
    let i := a.get "dirt"
    ⟨[i, i, i, i, i, i]⟩
  | .Grass =>
    let top := a.get "grass_top"
    let side := a.get "grass_side"
    let bottom := a.get "dirt"
    ⟨[side, side, side, side, top, bottom]⟩
  | .Stone =>
    let i := a.get "stone"
    ⟨[i, i, i, i, i, i]⟩
  | .Air =>
    let i := a.get "default"
    ⟨[i, i, i, i, i, i]⟩

/-- A file is accepted into the atlas when it is not a directory, reads
successfully, and matches the reference tile's dimensions. -/
def accepts (first : PngImage) (f : SrcFile) : Bool :=
  !f.is_dir &&
    match f.read with
    | some image => decide (image.width = first.width) && decide (image.height = first.height)
    | none => false

theorem packLoop_length (fs : List SrcFile) :
    ∀ (first : PngImage) (id : Nat) (acc : List (String × Nat)),
      (packLoop fs first id acc).length = acc.length + fs.countP (accepts first) := by
  induction fs with
  | nil => intro first id acc; simp [packLoop]
  | cons f rest ih =>
    intro first id acc
    by_cases hd : f.is_dir
    · simp [packLoop, hd, ih, List.countP_cons, accepts]
    · cases hr : f.read with
      | none => simp [packLoop, hd, hr, ih, List.countP_cons, accepts]
      | some image =>
        by_cases hm : image.width ≠ first.width ∨ image.height ≠ first.height
        · have : accepts first f = false := by
            simp [accepts, hd, hr]
            tauto
          simp [packLoop, hd, hr, hm, ih, List.countP_cons, this]
        · have : accepts first f = true := by
            push_neg at hm
            simp [accepts, hd, hr, hm.1, hm.2]
          simp [packLoop, hd, hr, hm, ih, List.countP_cons, this]
          omega

/-- The four-file scenario of C6: three 16×16 tiles and one 32×32 tile, in
enumeration order. -/
def scenarioFiles : List SrcFile :=
  [⟨"grass_side", false, some ⟨16, 16⟩⟩,
   ⟨"big", false, some ⟨32, 32⟩⟩,
   ⟨"dirt", false, some ⟨16, 16⟩⟩,
   ⟨"stone", false, some ⟨16, 16⟩⟩]

/-- Counterexample to C6 as stated: with four enumerated files of which one is
rejected for mismatched dimensions, the accepted count is `N = 3` and the claim
predicts a side length of `ceil(sqrt(3 + 1)) = 2` tiles, but `pack_textures`
computes the side from the raw enumeration count, `ceil(sqrt(4 + 1)) = 3` tiles
(48 pixels at tile size 16); the id count is indeed 4 (placeholder plus 3). -/
theorem atlas_side_cex :
    ((Atlas.pack_textures scenarioFiles).map fun a => a.image.width / a.tile_size) =
      some 3 ∧
    ((Atlas.pack_textures scenarioFiles).map fun a => a.textures.length) = some 4 ∧
    natCeilSqrt (3 + 1) = 2 := by
  decide

/-- C6 (amended): the atlas side length in tiles is `ceil(sqrt(E + 1))` where `E`
is the number of enumerated candidate files — rejected files included — while the
name map registers one id per accepted file plus the placeholder; in the
four-file scenario the valid ids are 4 (0 placeholder + 3 accepted), not 5, but
the side is 3 tiles, not `ceil(sqrt(3 + 1)) = 2`. -/
theorem atlas_side_uses_enumerated_count (f0 : SrcFile) (rest : List SrcFile)
    (first : PngImage) (a : Atlas) (hr : f0.read = some first)
    (ha : Atlas.pack_textures (f0 :: rest) = some a) :
    a.tile_size = first.width ∧
    a.image.width = first.width * natCeilSqrt ((f0 :: rest).length + 1) ∧
    a.image.height = first.height * natCeilSqrt ((f0 :: rest).length + 1) ∧
    a.textures.length = 1 + (f0 :: rest).countP (fun f => accepts first f) := by
  have hpack : Atlas.pack_textures (f0 :: rest) =
      some { image := ⟨first.width * natCeilSqrt ((f0 :: rest).length + 1),
                      first.height * natCeilSqrt ((f0 :: rest).length + 1)⟩
             tile_size := first.width
             textures := packLoop (f0 :: rest) first 1 [("default", 0)] } := by
    simp [Atlas.pack_textures, hr]
  rw [hpack] at ha
  simp only [Option.some.injEq] at ha
  subst ha
  refine ⟨rfl, rfl, rfl, ?_⟩
  simp [packLoop_length]

/-- Witness for the amended C6 at the four-file scenario. -/
theorem atlas_side_uses_enumerated_count_witness :
    (⟨⟨48, 48⟩, 16, [("stone", 3), ("dirt", 2), ("grass_side", 1), ("default", 0)]⟩ :
        Atlas).tile_size = 16 ∧
    (⟨⟨48, 48⟩, 16, [("stone", 3), ("dirt", 2), ("grass_side", 1), ("default", 0)]⟩ :
        Atlas).image.width = 16 * natCeilSqrt (scenarioFiles.length + 1) ∧
    (⟨⟨48, 48⟩, 16, [("stone", 3), ("dirt", 2), ("grass_side", 1), ("default", 0)]⟩ :
        Atlas).image.height = 16 * natCeilSqrt (scenarioFiles.length + 1) ∧
    (⟨⟨48, 48⟩, 16, [("stone", 3), ("dirt", 2), ("grass_side", 1), ("default", 0)]⟩ :
        Atlas).textures.length =
      1 + scenarioFiles.countP (fun f => accepts ⟨16, 16⟩ f) := by
  have h := atlas_side_uses_enumerated_count ⟨"grass_side", false, some ⟨16, 16⟩⟩
    [⟨"big", false, some ⟨32, 32⟩⟩, ⟨"dirt", false, some ⟨16, 16⟩⟩,
     ⟨"stone", false, some ⟨16, 16⟩⟩]
    ⟨16, 16⟩
    ⟨⟨48, 48⟩, 16, [("stone", 3), ("dirt", 2), ("grass_side", 1), ("default", 0)]⟩
    rfl (by decide)
  exact h

/-- The two-file list of the C7 counterexample: the first file is unreadable. -/
def unreadableFirst : List SrcFile :=
  [⟨"a", false, none⟩, ⟨"b", false, some ⟨16, 16⟩⟩]

/-- Counterexample to C7 as stated: a read failure on the *first* enumerated file
is fatal — `png_utils::read(&files[0]).unwrap()` panics — so `pack_textures` does
not return an Atlas, although the claim asserts read failures are non-fatal for
every enumerated file including the first. -/
theorem atlas_first_read_fatal_cex :
    Atlas.pack_textures unreadableFirst = none := by
  decide

/-- C7 (amended): provided the first enumerated file reads successfully (fixing
the reference tile), every subsequent read failure or dimension mismatch is
non-fatal: the file is skipped (it contributes no name-map entry) and
`pack_textures` returns an Atlas. -/
theorem atlas_nonfatal_after_first (f0 : SrcFile) (rest : List SrcFile)
    (first : PngImage) (hr : f0.read = some first) :
    ∃ a, Atlas.pack_textures (f0 :: rest) = some a ∧
      a.textures.length = 1 + (f0 :: rest).countP (fun f => accepts first f) := by
  refine ⟨{ image := ⟨first.width * natCeilSqrt ((f0 :: rest).length + 1),
                     first.height * natCeilSqrt ((f0 :: rest).length + 1)⟩
            tile_size := first.width
            textures := packLoop (f0 :: rest) first 1 [("default", 0)] }, ?_, ?_⟩
  · simp [Atlas.pack_textures, hr]
  · simp [packLoop_length]

/-- Witness for the amended C7: one readable reference tile followed by an
unreadable file and a mismatched file still yields an Atlas with exactly the
placeholder and the reference tile registered. -/
theorem atlas_nonfatal_after_first_witness :
    ∃ a, Atlas.pack_textures
        [⟨"a", false, some ⟨16, 16⟩⟩, ⟨"broken", false, none⟩,
         ⟨"big", false, some ⟨32, 32⟩⟩] = some a ∧
      a.textures.length = 1 +
        List.countP (fun f => accepts ⟨16, 16⟩ f)
          [⟨"a", false, some ⟨16, 16⟩⟩, ⟨"broken", false, none⟩,
           ⟨"big", false, some ⟨32, 32⟩⟩] :=
  atlas_nonfatal_after_first ⟨"a", false, some ⟨16, 16⟩⟩
    [⟨"broken", false, none⟩, ⟨"big", false, some ⟨32, 32⟩⟩] ⟨16, 16⟩ rfl

/-- A concrete atlas used as the C8 witness input. -/
def testAtlas : Atlas :=
  ⟨⟨32, 32⟩, 16, [("grass_side", 1), ("grass_top", 2), ("dirt", 3)]⟩

/-- C8: `Atlas::get` returns the registered id when the name is present and the
reserved placeholder id 0 for any unknown name, never failing; and
`Atlas::block_texture` on Grass assigns the `grass_side` tile to the four lateral
faces (North, South, East, West), the `grass_top` tile to the Top face, and the
`dirt` tile to the Bottom face. -/
theorem atlas_get_fallback (a : Atlas) (name : String) (id : Nat) :
    (a.textures.lookup name = some id → a.get name = id) ∧
    (a.textures.lookup name = none → a.get name = 0) ∧
    (a.block_texture BlockId.Grass).values =
      [a.get "grass_side", a.get "grass_side", a.get "grass_side", a.get "grass_side",
       a.get "grass_top", a.get "dirt"] := by
  refine ⟨?_, ?_, rfl⟩ <;> (intro h; simp [Atlas.get, h])

/-- Witness for C8 at a concrete atlas: a registered name, an unknown name, and
the Grass face table. -/
theorem atlas_get_fallback_witness :
    testAtlas.get "dirt" = 3 ∧
    testAtlas.get "missing" = 0 ∧
    (testAtlas.block_texture BlockId.Grass).values = [1, 1, 1, 1, 2, 3] := by
  refine ⟨?_, ?_, ?_⟩
  · exact (atlas_get_fallback testAtlas "dirt" 3).1 (by decide)
  · exact (atlas_get_fallback testAtlas "missing" 0).2.1 (by decide)
  · exact ((atlas_get_fallback testAtlas "dirt" 3).2.2).trans (by decide)

/-- Exact rational value of the `f32` constant `std::f32::consts::FRAC_PI_2`
(slightly above the real `π / 2`). -/
def FRAC_PI_2 : ℚ := 13176795 / 8388608

/-- Exact rational value of the `f32` factor `consts::PI / 180.0` used by
`f32::to_radians`. -/
def RADS_PER_DEG : ℚ := 9370165 / 536870912

/-- Degree-to-radian conversion `f32::to_radians` (the per-call `f32` rounding is
absorbed by quantifying over arbitrary rational deltas). -/
def to_radians (x : ℚ) : ℚ := x * RADS_PER_DEG

/-- Exact rational value of the `f32` clamp bound
`f32::consts::FRAC_PI_2 - 0.0001` computed in `f32` by `Camera::rotate_by`; the
lower bound `-FRAC_PI_2 + 0.0001` is exactly its negation. -/
def PITCH_LIMIT : ℚ := 3293989 / 2097152

/-- The camera pose touched by `Camera::rotate_by` (`explora/src/camera.rs`):
`rotation.x` is yaw, `rotation.y` is pitch, in radians.  The `f32` angles are
modelled by exact rationals; position, fov, aspect and the cached matrices are
untouched by rotation and omitted. -/
structure Camera where
  rotation_x : ℚ
  rotation_y : ℚ
  deriving DecidableEq, Repr

/-- `Camera::rotate_by` from `explora/src/camera.rs`: yaw accumulates the
converted delta unclamped; pitch accumulates the negated converted delta and is
then clamped to `[-FRAC_PI_2 + 0.0001, FRAC_PI_2 - 0.0001]`
(Rust `clamp(lo, hi)` is `min (max v lo) hi` for `lo ≤ hi`). -/
def Camera.rotate_by (c : Camera) (dx dy : ℚ) : Camera :=
  let rx := c.rotation_x + to_radians dx
  let ry := c.rotation_y + -to_radians dy
  ⟨rx, min (max ry (-PITCH_LIMIT)) PITCH_LIMIT⟩

/-- A sequence of `rotate_by` calls, applied left to right. -/
def Camera.rotate_seq (c : Camera) : List (ℚ × ℚ) → Camera
  | [] => c
  | d :: ds => (c.rotate_by d.1 d.2).rotate_seq ds

theorem pitch_limit_lt_half_pi : ((PITCH_LIMIT : ℚ) : ℝ) < Real.pi / 2 := by
  have hq : ((PITCH_LIMIT : ℚ) : ℝ) < 3.141592 / 2 := by
    rw [PITCH_LIMIT]
    norm_num
  linarith [Real.pi_gt_d6]

theorem pitch_limit_pos : (0 : ℚ) < PITCH_LIMIT := by
  rw [PITCH_LIMIT]
  norm_num

theorem rotate_by_pitch_mem (c : Camera) (dx dy : ℚ) :
    -PITCH_LIMIT ≤ (c.rotate_by dx dy).rotation_y ∧
      (c.rotate_by dx dy).rotation_y ≤ PITCH_LIMIT := by
  have hP := pitch_limit_pos
  constructor
  · refine le_min (le_max_right _ _) (by linarith)
  · exact min_le_right _ _

/-- C9: starting from any pitch strictly inside `(-π/2, π/2)`, after any sequence
of `rotate_by` calls the pitch is still strictly inside `(-π/2, π/2)` — after at
least one call it is clamped into the epsilon-shrunk interval
`[-PITCH_LIMIT, PITCH_LIMIT]` — no matter how large the cumulative pitch delta,
while yaw accumulates every converted delta without any bound. -/
theorem camera_pitch_clamped (c : Camera) (ds : List (ℚ × ℚ))
    (h : -(Real.pi / 2) < (c.rotation_y : ℝ) ∧ (c.rotation_y : ℝ) < Real.pi / 2) :
    (-(Real.pi / 2) < ((c.rotate_seq ds).rotation_y : ℝ) ∧
      ((c.rotate_seq ds).rotation_y : ℝ) < Real.pi / 2) ∧
    (ds ≠ [] → -PITCH_LIMIT ≤ (c.rotate_seq ds).rotation_y ∧
      (c.rotate_seq ds).rotation_y ≤ PITCH_LIMIT) ∧
    (c.rotate_seq ds).rotation_x =
      c.rotation_x + (ds.map (fun d => to_radians d.1)).sum := by
  induction ds generalizing c with
  | nil =>
    refine ⟨h, by simp, by simp [Camera.rotate_seq]⟩
  | cons d ds ih =>
    have hmem := rotate_by_pitch_mem c d.1 d.2
    have hlt := pitch_limit_lt_half_pi
    have hstep : -(Real.pi / 2) < (((c.rotate_by d.1 d.2).rotation_y : ℚ) : ℝ) ∧
        (((c.rotate_by d.1 d.2).rotation_y : ℚ) : ℝ) < Real.pi / 2 := by
      have h1 : ((-PITCH_LIMIT : ℚ) : ℝ) ≤ ((c.rotate_by d.1 d.2).rotation_y : ℝ) := by
        exact_mod_cast hmem.1
      have h2 : (((c.rotate_by d.1 d.2).rotation_y : ℚ) : ℝ) ≤ ((PITCH_LIMIT : ℚ) : ℝ) := by
        exact_mod_cast hmem.2
      have h3 : ((-PITCH_LIMIT : ℚ) : ℝ) = -((PITCH_LIMIT : ℚ) : ℝ) := by push_cast; ring
      constructor <;> [linarith [h3 ▸ h1]; linarith]
    have hrec := ih (c.rotate_by d.1 d.2) hstep
    refine ⟨hrec.1, ?_, ?_⟩
    · intro _
      cases ds with
      | nil => simpa [Camera.rotate_seq] using hmem
      | cons e es => exact hrec.2.1 (by simp)
    · have hx : (c.rotate_by d.1 d.2).rotation_x = c.rotation_x + to_radians d.1 := rfl
      calc (Camera.rotate_seq c (d :: ds)).rotation_x
          = (Camera.rotate_seq (c.rotate_by d.1 d.2) ds).rotation_x := rfl
        _ = (c.rotate_by d.1 d.2).rotation_x +
              (ds.map (fun e => to_radians e.1)).sum := hrec.2.2
        _ = c.rotation_x + ((d :: ds).map (fun e => to_radians e.1)).sum := by
              rw [hx]
              simp
              ring

/-- Witness for C9: from the level pose, a single call driving pitch far past
`+90°` (a pitch delta of `-200000` degrees is converted and negated into a huge
positive pitch increment) leaves the pitch strictly below `π/2` and moves yaw by
exactly the converted `90` degrees. -/
theorem camera_pitch_clamped_witness :
    (-(Real.pi / 2) < ((Camera.rotate_seq ⟨0, 0⟩ [(90, -200000)]).rotation_y : ℝ) ∧
      ((Camera.rotate_seq ⟨0, 0⟩ [(90, -200000)]).rotation_y : ℝ) < Real.pi / 2) ∧
    (([((90 : ℚ), (-200000 : ℚ))] ≠ []) →
      -PITCH_LIMIT ≤ (Camera.rotate_seq ⟨0, 0⟩ [(90, -200000)]).rotation_y ∧
      (Camera.rotate_seq ⟨0, 0⟩ [(90, -200000)]).rotation_y ≤ PITCH_LIMIT) ∧
    (Camera.rotate_seq ⟨0, 0⟩ [(90, -200000)]).rotation_x =
      0 + ([((90 : ℚ), (-200000 : ℚ))].map (fun d => to_radians d.1)).sum := by
  have hpi := Real.pi_gt_d6
  exact camera_pitch_clamped ⟨0, 0⟩ [(90, -200000)]
    ⟨by push_cast; linarith, by push_cast; linarith⟩

end Explora
